import Mathlib

/-!
# Verification of the `images_sort` classification-and-placement pipeline

Shallow embedding of the core of the `images_sort` repository
(`src/exif.rs`, `src/place_finder.rs`, `src/directories.rs`,
`src/images_manager.rs`, `src/reporting.rs`) together with proofs about it.

Modelling conventions:
* A filesystem path is a list of path segments (`FPath`); `Path::join`
  with a single-segment operand is `· ++ [s]`, and joining a relative
  path is list append.
* The filesystem is explicit state: a list of existing files and a list
  of existing directories, threaded through every operation.
* `f64` values are embedded as exact rationals (`ℚ`); the Rust `as i32`
  cast is modelled by truncation toward zero clamped to the `i32` range.
* `u32` counters (`AtomicU32::fetch_add` wraps) are `Nat` reduced
  `% 2^32`.
* The random generator (`rand::random_range`) and the external
  collaborators (EXIF tag decoding, the `reverse_geocoder` search) are
  parameters: an attempt-indexed stream `Nat → Nat` reduced into the
  requested range, and a total search function `ℚ → ℚ → String`
  (the collaborator always returns a nearest record).
-/

namespace ImagesSort

/-- A filesystem path, as its list of path segments. -/
abbrev FPath := List String

/-- Embeds `Path::file_name` of a path that has one (last segment), defaulting to
the empty string for the empty path (the source unwraps; callers have
checked the path names a file). -/
def fileName (p : FPath) : String := p.getLastD ""

/-! ## Sanitizer — `Directory::parse` in `src/exif.rs`

The source replaces every match of the regex `[^\w]` by one space
(`re.replace_all(&s, " ")`).  The `regex` crate's `\w` is Unicode-aware
by default, so Unicode word characters (for instance the Latin-1 letters)
are *kept*, not replaced. -/

/-- The `regex` crate's Unicode `\w` character class, restricted to the
code points exercised in this development: ASCII alphanumerics and
underscore, plus the Latin-1 letters U+00C0–U+00D6, U+00D8–U+00F6 and
U+00F8–U+00FF, all of which are `Alphabetic` and therefore word
characters in Unicode.  Code points above U+00FF are not needed by any
theorem below and are conservatively mapped to `false`. -/
def isWordChar (c : Char) : Bool :=
  c.isAlphanum || c == '_' ||
  (0xC0 ≤ c.toNat && c.toNat ≤ 0xD6) ||
  (0xD8 ≤ c.toNat && c.toNat ≤ 0xF6) ||
  (0xF8 ≤ c.toNat && c.toNat ≤ 0xFF)

/-- One character of `re.replace_all(&s, " ")` for the regex `[^\w]`:
a word character is kept, anything else becomes exactly one space. -/
def sanitizeChar (c : Char) : Char := if isWordChar c then c else ' '

/-- The regex `[^\w]` replaced by a single space, characterwise over the string. -/
def sanitize (s : String) : String := ⟨s.data.map sanitizeChar⟩

/-- The `Directory` newtype of `src/exif.rs`: a path segment that went
through the sanitizer. -/
structure Directory where
  get : String
deriving DecidableEq

/-- Embeds `Directory::parse` in `src/exif.rs` lines 43-49. -/
def Directory.parse (s : String) : Directory := ⟨sanitize s⟩

/-! ## Geocode cache-key quantization — `find_place` in `src/place_finder.rs`

```rust
let cache_key = ((lat * 10000.0) as i32, (long * 10000.0) as i32);
```
`as i32` on an `f64` truncates toward zero and saturates at the `i32`
bounds. -/

/-- Truncation toward zero on `ℚ` (the rounding used by Rust's
float-to-int `as` casts). -/
def truncToward0 (x : ℚ) : ℤ := if 0 ≤ x then ⌊x⌋ else ⌈x⌉

/-- Rust's `expr as i32` on an `f64` value: truncate toward zero, then
saturate at the `i32` bounds. -/
def f64AsI32 (x : ℚ) : ℤ :=
  max (-2147483648) (min 2147483647 (truncToward0 x))

/-- The quantized geocoding cache key computed by `find_place`
(`src/place_finder.rs` lines 45-48). -/
def cache_key (lat long : ℚ) : ℤ × ℤ :=
  (f64AsI32 (lat * 10000), f64AsI32 (long * 10000))

/-- Modelled from the spec: the cache key as §4.2 words it,
`(round(lat*10000), round(long*10000))` — each coordinate scaled by
10000 and rounded to the *nearest* integer.  Kept separate from
`cache_key` (which embeds the source) so the two can be compared. -/
def cache_key_spec (lat long : ℚ) : ℤ × ℤ :=
  (round (lat * 10000), round (long * 10000))

/-! ## The geocoding LRU cache — `GEOCODING_CACHE` and `find_place`
in `src/place_finder.rs`

The `lru` crate's `LruCache` is embedded as a most-recently-used-first
association list together with its capacity.  `get` promotes a present
key to the front; `put` inserts at the front, evicting the last (least
recently used) entry when the key is new and the cache is full. -/

/-- The geocoding cache state: entries ordered most-recently-used first,
plus the capacity fixed at construction. -/
structure LruCache where
  entries : List ((ℤ × ℤ) × String)
  cap : Nat
deriving DecidableEq

/-- Embeds `LruCache::get`: on a hit, return the value and move the entry to
the most-recently-used position; on a miss, leave the cache unchanged. -/
def LruCache.get (c : LruCache) (k : ℤ × ℤ) : Option String × LruCache :=
  match c.entries.find? (fun e => e.1 = k) with
  | some e => (some e.2, ⟨e :: c.entries.eraseP (fun x => x.1 = k), c.cap⟩)
  | none => (none, c)

/-- Embeds `LruCache::put`: update-and-promote an existing key; otherwise
insert at the front, evicting the least-recently-used entry when the
cache is at capacity. -/
def LruCache.put (c : LruCache) (k : ℤ × ℤ) (v : String) : LruCache :=
  if (c.entries.find? (fun e => e.1 = k)).isSome then
    ⟨(k, v) :: c.entries.eraseP (fun x => x.1 = k), c.cap⟩
  else if c.cap ≤ c.entries.length then
    ⟨(k, v) :: c.entries.dropLast, c.cap⟩
  else
    ⟨(k, v) :: c.entries, c.cap⟩

/-- Embeds `GEOCODING_CACHE` (`src/place_finder.rs` lines 21-23):
`LruCache::new(NonZeroUsize::new(1000)`, initially empty. -/
def GEOCODING_CACHE : LruCache := ⟨[], 1000⟩

/-- Embeds `find_place` (`src/place_finder.rs` lines 38-79), with the cache
passed as explicit state and the external `reverse_geocoder` search as a
parameter (it always produces a nearest record, hence a total function).
Besides the source's `Option<String>` result, the model returns the new
cache state and whether the external search was invoked. -/
def find_place (st : LruCache) (search : ℚ → ℚ → String) (lat long : ℚ) :
    Option String × LruCache × Bool :=
  match st.get (cache_key lat long) with
  | (some place, st2) => (some place, st2, false)
  | (none, _) =>
    (some (search lat long),
     st.put (cache_key lat long) (search lat long), true)

/-- The place-determination tail of `analyze_exif_data`
(`src/exif.rs` lines 81-87 and 175-184): `exif_data.place` starts as
`Directory::parse("Unknown Place")` and is overwritten from `find_place`
only when at least one decoded coordinate is nonzero. -/
def analyze_exif_place (st : LruCache) (search : ℚ → ℚ → String)
    (gps_lat gps_long : ℚ) : Directory × LruCache × Bool :=
  if gps_lat ≠ 0 ∨ gps_long ≠ 0 then
    match find_place st search gps_lat gps_long with
    | (some place, st2, called) => (Directory.parse place, st2, called)
    | (none, st2, called) => (Directory.parse ("Unknown Place"), st2, called)
  else
    (Directory.parse ("Unknown Place"), st, false)

/-! ## Metrics — `src/reporting.rs`

The six counters are `AtomicU32` statics (`fetch_add(1)` wraps modulo
`2^32`); the composite structures live behind one `RwLock` in the
`Reporting` struct.  Both are embedded as one record threaded as state. -/

/-- The wrap-around modulus of the `AtomicU32` counters, `2^32`. -/
def U32MOD : Nat := 4294967296

/-- The metrics state: the `AtomicU32` counters (`NB_*` statics) and the
`RwLock<Reporting>` composite structures of `src/reporting.rs`.
`errors_details` is kept in push order (`Vec::push` appends). -/
structure Reporting where
  nb_directories : Nat
  nb_images : Nat
  nb_sorted_images : Nat
  nb_unsorted_images : Nat
  nb_error_on_images : Nat
  nb_duplicates_renamed : Nat
  places_found : List (String × Nat)
  devices_found : List String
  errors_details : List (FPath × String)
  oldest_date : Option String
  newest_date : Option String
deriving DecidableEq

/-- Embeds `Reporting::default()`: all counters zero, all structures empty. -/
def Reporting.default : Reporting := ⟨0, 0, 0, 0, 0, 0, [], [], [], none, none⟩

/-- Embeds `Reporting::image_processed_sorted`: bumps `NB_IMAGES` and
`NB_SORTED_IMAGES`. -/
def Reporting.image_processed_sorted (r : Reporting) : Reporting :=
  { r with nb_images := (r.nb_images + 1) % U32MOD,
           nb_sorted_images := (r.nb_sorted_images + 1) % U32MOD }

/-- Embeds `Reporting::image_processed_unsorted`: bumps `NB_IMAGES` and
`NB_UNSORTED_IMAGES`. -/
def Reporting.image_processed_unsorted (r : Reporting) : Reporting :=
  { r with nb_images := (r.nb_images + 1) % U32MOD,
           nb_unsorted_images := (r.nb_unsorted_images + 1) % U32MOD }

/-- Embeds `Reporting::directory_processed`. -/
def Reporting.directory_processed (r : Reporting) : Reporting :=
  { r with nb_directories := (r.nb_directories + 1) % U32MOD }

/-- Embeds `Reporting::error_on_image`: bumps `NB_ERROR_ON_IMAGES` only. -/
def Reporting.error_on_image (r : Reporting) : Reporting :=
  { r with nb_error_on_images := (r.nb_error_on_images + 1) % U32MOD }

/-- Embeds `Reporting::duplicate_renamed`. -/
def Reporting.duplicate_renamed (r : Reporting) : Reporting :=
  { r with nb_duplicates_renamed := (r.nb_duplicates_renamed + 1) % U32MOD }

/-- One step of `*r.places_found.entry(place).or_insert(0) += 1` on an
association list. -/
def bumpPlace (place : String) : List (String × Nat) → List (String × Nat)
  | [] => [(place, 1)]
  | (p, n) :: rest =>
    if p = place then (p, n + 1) :: rest else (p, n) :: bumpPlace place rest

/-- Embeds `Reporting::add_place`. -/
def Reporting.add_place (r : Reporting) (place : String) : Reporting :=
  { r with places_found := bumpPlace place r.places_found }

/-- Embeds `Reporting::add_device` (`HashSet::insert`). -/
def Reporting.add_device (r : Reporting) (device : String) : Reporting :=
  { r with devices_found :=
      if device ∈ r.devices_found then r.devices_found
      else device :: r.devices_found }

/-- Embeds `Reporting::add_error` (`Vec::push`). -/
def Reporting.add_error (r : Reporting) (file : FPath) (reason : String) :
    Reporting :=
  { r with errors_details := r.errors_details ++ [(file, reason)] }

/-- Embeds `Reporting::update_date_range`: extend the min/max observed period
strings by ordinary string comparison. -/
def Reporting.update_oldest (r : Reporting) (date : String) : Reporting :=
  match r.oldest_date with
  | none => { r with oldest_date := some date }
  | some s => if date < s then { r with oldest_date := some date } else r

def Reporting.update_newest (r : Reporting) (date : String) : Reporting :=
  match r.newest_date with
  | none => { r with newest_date := some date }
  | some s => if s < date then { r with newest_date := some date } else r

def Reporting.update_date_range (r : Reporting) (date : String) : Reporting :=
  (r.update_oldest date).update_newest date

/-- The metrics operations a worker can perform (the public mutating
methods of `Reporting`), for quantifying over arbitrary sequences. -/
inductive MetricsOp where
  | image_processed_sorted
  | image_processed_unsorted
  | directory_processed
  | error_on_image
  | duplicate_renamed
  | add_place (place : String)
  | add_device (device : String)
  | add_error (file : FPath) (reason : String)
  | update_date_range (date : String)
deriving DecidableEq

/-- Apply one metrics operation. -/
def Reporting.applyOp (r : Reporting) : MetricsOp → Reporting
  | .image_processed_sorted => r.image_processed_sorted
  | .image_processed_unsorted => r.image_processed_unsorted
  | .directory_processed => r.directory_processed
  | .error_on_image => r.error_on_image
  | .duplicate_renamed => r.duplicate_renamed
  | .add_place p => r.add_place p
  | .add_device d => r.add_device d
  | .add_error f m => r.add_error f m
  | .update_date_range d => r.update_date_range d

/-- Apply a sequence of metrics operations, oldest first. -/
def Reporting.applyOps (r : Reporting) (ops : List MetricsOp) : Reporting :=
  ops.foldl Reporting.applyOp r

/-- The images-processed counter always equals the (u32, wrapping) sum
of the sorted and unsorted counters. -/
def imagesInv (r : Reporting) : Prop :=
  r.nb_images = (r.nb_sorted_images + r.nb_unsorted_images) % U32MOD

/-! ## Filesystem state, directory cache and creation — `src/directories.rs`

`Sys` bundles what the pipeline mutates: the `CREATED_DIRS_CACHE` set
and the on-disk state (existing files, existing directories). -/

/-- The mutable world of the pipeline: the `CREATED_DIRS_CACHE` static
of `src/directories.rs` plus the on-disk filesystem (which paths exist
as files, which as directories). -/
structure Sys where
  created_dirs_cache : List FPath
  files : List FPath
  dirs : List FPath
deriving DecidableEq

/-- Embeds `Path::try_exists` / `Path::exists`: true for files and directories. -/
def Sys.pathExists (st : Sys) (p : FPath) : Bool :=
  p ∈ st.files || p ∈ st.dirs

/-- Embeds `Path::is_dir`. -/
def Sys.isDir (st : Sys) (p : FPath) : Bool := p ∈ st.dirs

/-- Add one directory to the disk state if absent. -/
def addDir (fs : List FPath) (q : FPath) : List FPath :=
  if q ∈ fs then fs else q :: fs

/-- Embeds `DirBuilder::new().recursive(true).create(p)`: create `p` and every
missing ancestor; succeeds whether or not any of them already exists. -/
def mkdirRecursive (fs : List FPath) (p : FPath) : List FPath :=
  (p.inits.filter (fun q => q ≠ [])).foldl addDir fs

/-- Embeds `create_subdir` (`src/directories.rs` lines 71-99): join, consult
`CREATED_DIRS_CACHE`; on a hit return at once, otherwise create the
directory recursively on disk and record the path in the cache. -/
def create_subdir (st : Sys) (parent_directory sub_dir : FPath) :
    FPath × Sys :=
  if parent_directory ++ sub_dir ∈ st.created_dirs_cache then
    (parent_directory ++ sub_dir, st)
  else
    (parent_directory ++ sub_dir,
     { st with dirs := mkdirRecursive st.dirs (parent_directory ++ sub_dir),
               created_dirs_cache :=
                 (parent_directory ++ sub_dir) :: st.created_dirs_cache })

/-- Embeds `fs::copy(from, to)` (the interesting failure conditions: the source
must exist as a file and the destination must not be a directory);
on success the destination exists as a file. -/
def copyFile (st : Sys) (src dst : FPath) : Except String Sys :=
  if ¬ src ∈ st.files then .error ("copy failed: source does not exist")
  else if dst ∈ st.dirs then .error ("copy failed: destination is a directory")
  else .ok { st with files := if dst ∈ st.files then st.files else dst :: st.files }

/-! ## Duplicate resolution — `check_for_duplicate_and_rename`
in `src/images_manager.rs` lines 192-233

File-name surgery (`file_stem`, `extension`, `with_file_name`,
`set_extension`) is embedded over the final path segment, splitting at
the last dot, with the Rust special case that a leading dot alone does
not start an extension. -/

/-- The positions of `.` in a string. -/
def dotPositions (s : String) : List Nat :=
  (List.range s.data.length).filter (fun i => s.data.getD i ' ' = '.')

/-- Rust's `file_stem` / `extension` on one file name: split at the last
dot; no dot, or a dot only at position 0 (hidden files), means no
extension. -/
def rustSplitName (name : String) : String × Option String :=
  match (dotPositions name).getLast? with
  | none => (name, none)
  | some 0 => (name, none)
  | some i => (⟨name.data.take i⟩, some ⟨name.data.drop (i + 1)⟩)

/-- Embeds `Path::with_file_name`: replace the last segment. -/
def withFileName (p : FPath) (name : String) : FPath :=
  p.dropLast ++ [name]

/-- Embeds `Path::set_extension` on one file name: the new name is
`file_stem + "." + ext` — an existing extension is *replaced*. -/
def setExtName (name ext : String) : String :=
  (rustSplitName name).1 ++ (if ext = "" then "" else "." ++ ext)

/-- Embeds `Path::set_extension` on a path (no-op without a file name). -/
def setExtension (p : FPath) (ext : String) : FPath :=
  match p.getLast? with
  | none => p
  | some name => p.dropLast ++ [setExtName name ext]

/-- Embeds `rand::Rng::random_range(&mut rand::rng(), 100..100000)` at the
`i`-th attempt, for an injected raw stream `rng`: a value in
`[100, 100000)`. -/
def randomFrom (rng : Nat → Nat) (i : Nat) : Nat := 100 + rng i % 99900

/-- The candidate path synthesized at attempt `i`:
`with_file_name("{stem}_duplicate_{random}")`, then `set_extension(ext)`
when the original name had an extension. -/
def dupCandidate (path : FPath) (stem : String) (ext : Option String)
    (rng : Nat → Nat) (i : Nat) : FPath :=
  match ext with
  | some e =>
    setExtension
      (withFileName path (stem ++ "_duplicate_" ++ toString (randomFrom rng i))) e
  | none => withFileName path (stem ++ "_duplicate_" ++ toString (randomFrom rng i))

/-- The two failure exits of `check_for_duplicate_and_rename` — the
`eyre!` messages are distinct: `"Error when checking for duplication in
target directory"` versus `"Unable to find a unique filename after 1000
attempts for …"`. -/
inductive DupError where
  | dirError
  | exhausted
deriving DecidableEq

deriving instance DecidableEq for Except

/-- The retry loop (`for attempt in 0..1000`), as recursion on the
remaining fuel; the `Bool` records that `Reporting::duplicate_renamed`
was called on that exit. -/
def dupSearch (st : Sys) (path : FPath) (stem : String) (ext : Option String)
    (rng : Nat → Nat) (attempt : Nat) :
    Nat → Except DupError (Option FPath × Bool)
  | 0 => .error .exhausted
  | fuel + 1 =>
    if st.pathExists (dupCandidate path stem ext rng attempt) then
      dupSearch st path stem ext rng (attempt + 1) fuel
    else
      .ok (some (dupCandidate path stem ext rng attempt), true)

/-- Embeds `check_for_duplicate_and_rename` (`src/images_manager.rs` lines
192-233).  `.ok (none, b)` is the source's `Ok(None)` — the desired
path is free and the caller uses it unchanged; the `Bool` records
whether `Reporting::duplicate_renamed` was invoked. -/
def check_for_duplicate_and_rename (st : Sys) (rng : Nat → Nat)
    (file : FPath) : Except DupError (Option FPath × Bool) :=
  if st.isDir file then .error .dirError
  else if ¬ st.pathExists file then .ok (none, false)
  else
    let stem := (rustSplitName (fileName file)).1
    let ext := (rustSplitName (fileName file)).2
    dupSearch st file stem ext rng 0 1000

/-! ## The per-file pipeline — `src/images_manager.rs`

`get_exif_data` (binary EXIF decoding) is an external collaborator: it
is injected as a function from the file to the outcome, mirroring the
`Result<ExifData, ExifError>` the source matches on.  `rayon`'s
parallel iteration is embedded as processing the file list in order
(the claims proved below are about per-file effects and about every
file being processed, which no interleaving changes). -/

/-- Embeds `ExifData` of `src/exif.rs` (coordinates as exact rationals). -/
structure ExifData where
  year_month : Directory
  gps_lat : ℚ
  gps_long : ℚ
  place : Directory
  device : Directory
deriving DecidableEq

/-- Embeds `GlobalConfiguration` of `src/global_configuration.rs`, restricted
to the fields the pipeline reads. -/
structure GlobalConfiguration where
  use_device : Bool
  source_directory : FPath
  sorted_images_directory : FPath
  unsorted_images_directory : FPath
deriving DecidableEq

/-- The outcome of `exif::get_exif_data` for one file:
`Ok(ExifData)` or one of the `ExifError` variants. -/
inductive ExifResult where
  | ok (exif_data : ExifData)
  | noExifData
  | notImage (s : String)
  | ioErr (s : String)
  | decoding (s : String)
deriving DecidableEq

/-- The failure exits of `sort_image_from_exif_data`: a duplicate-check
failure or a copy failure. -/
inductive PipeError where
  | dup (e : DupError)
  | copyErr (msg : String)
deriving DecidableEq

/-- The `format!("{}", e)` detail recorded with `Reporting::add_error`. -/
def PipeError.message : PipeError → String
  | .dup .dirError => "Error when checking for duplication in target directory"
  | .dup .exhausted => "Unable to find a unique filename after 1000 attempts"
  | .copyErr m => m

/-- The sequence of `create_subdir` calls of `sort_image_from_exif_data`
(one per classification segment), each extending the directory returned
by the previous one and threading the state. -/
def create_subdirs_chain (st : Sys) (base : FPath) :
    List String → FPath × Sys
  | [] => (base, st)
  | seg :: rest =>
    create_subdirs_chain (create_subdir st base [seg]).2
      (create_subdir st base [seg]).1 rest

/-- The directory-materialization half of `sort_image_from_exif_data`
(`src/images_manager.rs` lines 132-142): ensure
`<sorted_root>/<period>`, then `/<place>`, then `/<device>` exactly when
`use_device` is set. -/
def ensure_target_dirs (st : Sys) (exif_data : ExifData)
    (configuration : GlobalConfiguration) : FPath × Sys :=
  create_subdirs_chain st configuration.sorted_images_directory
    ([exif_data.year_month.get, exif_data.place.get] ++
      (if configuration.use_device then [exif_data.device.get] else []))

/-- Embeds `sort_image_from_exif_data` (`src/images_manager.rs` lines 122-156):
ensure the classification directories, join the original file name,
resolve duplicates, copy.  The `Bool` records whether
`Reporting::duplicate_renamed` fired inside the duplicate check (it
fires before the copy, so it survives a copy failure). -/
def sort_image_from_exif_data (st : Sys) (rng : Nat → Nat) (file : FPath)
    (exif_data : ExifData) (configuration : GlobalConfiguration) :
    Except PipeError Sys × Bool :=
  match check_for_duplicate_and_rename
      (ensure_target_dirs st exif_data configuration).2 rng
      ((ensure_target_dirs st exif_data configuration).1 ++ [fileName file]) with
  | .error e => (.error (.dup e), false)
  | .ok (some deduplicate_path_name, b) =>
    match copyFile (ensure_target_dirs st exif_data configuration).2 file
        deduplicate_path_name with
    | .ok st4 => (.ok st4, b)
    | .error m => (.error (.copyErr m), b)
  | .ok (none, b) =>
    match copyFile (ensure_target_dirs st exif_data configuration).2 file
        ((ensure_target_dirs st exif_data configuration).1 ++ [fileName file]) with
    | .ok st4 => (.ok st4, b)
    | .error m => (.error (.copyErr m), b)

/-- Embeds `copy_unsorted_image_in_specific_dir` (`src/images_manager.rs` lines
158-176): join the *relative* source path under the unsorted root,
create the parent directories, copy. -/
def copy_unsorted_image_in_specific_dir (st : Sys) (file unsorted_dir : FPath) :
    Except String Sys :=
  copyFile
    { st with dirs := mkdirRecursive st.dirs (unsorted_dir ++ file).dropLast }
    file (unsorted_dir ++ file)

/-- The terminal state one file reaches. -/
inductive Outcome where
  | sorted
  | unsorted
  | errored
  | skipped
deriving DecidableEq

/-- The per-file body of the `files.par_iter().for_each` loop of
`sort_images_in_dir` (`src/images_manager.rs` lines 43-116): match on
the extraction outcome, branch per `ExifError` variant, update the
metrics of the reached terminal state. -/
def process_one (extract : FPath → ExifResult) (rng : Nat → Nat)
    (configuration : GlobalConfiguration) (st : Sys) (r : Reporting)
    (file : FPath) : Sys × Reporting × Outcome :=
  match extract file with
  | .ok exif_data =>
    let r1 := ((r.add_place exif_data.place.get).add_device
        exif_data.device.get).update_date_range exif_data.year_month.get
    match sort_image_from_exif_data st rng file exif_data configuration with
    | (.ok st1, b) =>
      (st1, (if b then r1.duplicate_renamed else r1).image_processed_sorted,
       .sorted)
    | (.error e, b) =>
      let r2 := if b then r1.duplicate_renamed else r1
      (st, (r2.error_on_image).add_error file e.message, .errored)
  | .ioErr io_msg =>
    (st, (r.error_on_image).add_error file ("IO error: " ++ io_msg), .errored)
  | .notImage _ => (st, r, .skipped)
  | .decoding _ =>
    match copy_unsorted_image_in_specific_dir st file
        configuration.unsorted_images_directory with
    | .ok st1 => (st1, r.image_processed_unsorted, .unsorted)
    | .error m => (st, (r.error_on_image).add_error file m, .errored)
  | .noExifData =>
    match copy_unsorted_image_in_specific_dir st file
        configuration.unsorted_images_directory with
    | .ok st1 => (st1, r.image_processed_unsorted, .unsorted)
    | .error m => (st, (r.error_on_image).add_error file m, .errored)

/-- The file loop of `sort_images_in_dir` over the listed files: every
file is processed and reaches exactly one terminal state; no outcome
short-circuits the rest. -/
def sort_images_in_dir (extract : FPath → ExifResult) (rng : Nat → Nat)
    (configuration : GlobalConfiguration) (st : Sys) (r : Reporting) :
    List FPath → Sys × Reporting × List Outcome
  | [] => (st, r, [])
  | file :: rest =>
    let s1 := process_one extract rng configuration st r file
    let s2 := sort_images_in_dir extract rng configuration s1.1 s1.2.1 rest
    (s2.1, s2.2.1, s1.2.2 :: s2.2.2)

/-! ## Supporting lemmas -/

/-- The map `sanitizeChar` is idempotent (a kept character is kept again, and a
space is not a word character so it stays a space). -/
theorem sanitizeChar_idem (c : Char) : sanitizeChar (sanitizeChar c) = sanitizeChar c := by
  by_cases h : isWordChar c
  · simp [sanitizeChar, h]
  · have h2 : sanitizeChar c = ' ' := by simp [sanitizeChar, h]
    rw [h2]
    decide

theorem sanitize_data (s : String) : (sanitize s).data = s.data.map sanitizeChar := rfl

/-! ## Claim C8 -/

/-- Claim C8, as stated, is false on the code: the regex `[^\w]` is
Unicode-aware, so the Latin-1 letter `é` is a word character and
survives `Directory::parse` unchanged, yet `é` is outside
`[A-Za-z0-9_ ]` (`Char.isAlphanum` is exactly ASCII alphanumeric). -/
theorem C8_counterexample :
    (Directory.parse ("é")).get = "é" ∧
    ¬ ∀ c ∈ (Directory.parse ("é")).get.data,
        (c.isAlphanum || c = '_' || c = ' ') = true := by
  constructor
  · decide
  · decide

/-- Claim C8 (amended): for every input, every character of the
`Directory::parse` output is a word character (of the regex crate's
Unicode `\w` class) or a space; the original `[A-Za-z0-9_ ]` bound holds
exactly for the ASCII part of `\w`. -/
theorem C8_sanitize_charset (s : String) :
    ((Directory.parse s).get.data.all
      (fun c => isWordChar c || c = ' ')) = true := by
  rw [List.all_eq_true]
  intro c hc
  rw [Directory.parse, sanitize_data] at hc
  obtain ⟨c', _, rfl⟩ := List.mem_map.mp hc
  unfold sanitizeChar
  by_cases h : isWordChar c'
  · simp [h]
  · simp [h]

/-! ## Claim C9 -/

/-- Claim C9: `sanitize` substitutes exactly one space for each
non-word character position (no collapsing: position `i` of the output
is the sanitization of position `i` of the input, spelled with `getD`
so the statement is total), preserves the length, never fails (it is a
total function), maps `""` to `""`, and is idempotent. -/
theorem C9_sanitize_pointwise :
    (∀ s : String, (sanitize s).length = s.length) ∧
    sanitize ("") = "" ∧
    (∀ s : String, ∀ i : Nat,
      (sanitize s).data.getD i ' ' =
        (if isWordChar (s.data.getD i ' ') then s.data.getD i ' ' else ' ')) ∧
    (∀ s : String, sanitize (sanitize s) = sanitize s) := by
  refine ⟨?_, by decide, ?_, ?_⟩
  · intro s
    show (sanitize s).data.length = s.data.length
    rw [sanitize_data, List.length_map]
  · intro s i
    have h : (' ' : Char) = sanitizeChar ' ' := by decide
    rw [sanitize_data]
    conv_lhs => rw [h]
    rw [List.getD_map]
    rfl
  · intro s
    apply String.ext
    rw [sanitize_data, sanitize_data, List.map_map]
    exact List.map_congr_left (fun c _ => sanitizeChar_idem c)

/-! ## Claim C10 -/

theorem update_oldest_counters (r : Reporting) (d : String) :
    (r.update_oldest d).nb_images = r.nb_images ∧
    (r.update_oldest d).nb_sorted_images = r.nb_sorted_images ∧
    (r.update_oldest d).nb_unsorted_images = r.nb_unsorted_images := by
  unfold Reporting.update_oldest
  cases r.oldest_date with
  | none => exact ⟨rfl, rfl, rfl⟩
  | some s =>
    by_cases h : d < s
    · simp [h]
    · simp [h]

theorem update_newest_counters (r : Reporting) (d : String) :
    (r.update_newest d).nb_images = r.nb_images ∧
    (r.update_newest d).nb_sorted_images = r.nb_sorted_images ∧
    (r.update_newest d).nb_unsorted_images = r.nb_unsorted_images := by
  unfold Reporting.update_newest
  cases r.newest_date with
  | none => exact ⟨rfl, rfl, rfl⟩
  | some s =>
    by_cases h : s < d
    · simp [h]
    · simp [h]

theorem imagesInv_applyOp (r : Reporting) (op : MetricsOp)
    (h : imagesInv r) : imagesInv (r.applyOp op) := by
  cases op with
  | image_processed_sorted =>
    simp only [imagesInv, Reporting.applyOp, Reporting.image_processed_sorted,
      U32MOD] at h ⊢
    omega
  | image_processed_unsorted =>
    simp only [imagesInv, Reporting.applyOp, Reporting.image_processed_unsorted,
      U32MOD] at h ⊢
    omega
  | update_date_range d =>
    show imagesInv (Reporting.update_newest (Reporting.update_oldest r d) d)
    unfold imagesInv
    rw [(update_newest_counters _ d).1, (update_newest_counters _ d).2.1,
      (update_newest_counters _ d).2.2, (update_oldest_counters r d).1,
      (update_oldest_counters r d).2.1, (update_oldest_counters r d).2.2]
    exact h
  | directory_processed => exact h
  | error_on_image => exact h
  | duplicate_renamed => exact h
  | add_place p => exact h
  | add_device t => exact h
  | add_error f m => exact h

theorem imagesInv_applyOps (ops : List MetricsOp) :
    ∀ r : Reporting, imagesInv r → imagesInv (r.applyOps ops) := by
  induction ops with
  | nil => intro r h; exact h
  | cons op rest ih =>
    intro r h
    exact ih (r.applyOp op) (imagesInv_applyOp r op h)

/-- Claim C10: after any sequence of metrics operations from the reset
state, `NB_IMAGES` equals the wrapping u32 sum of `NB_SORTED_IMAGES`
and `NB_UNSORTED_IMAGES`; `image_processed_sorted` and
`image_processed_unsorted` each bump their own counter and the shared
images counter, while `error_on_image` bumps only the error counter, so
errored files never enter the images-processed count. -/
theorem C10_images_counter_invariant :
    (∀ ops : List MetricsOp,
      (Reporting.default.applyOps ops).nb_images =
        ((Reporting.default.applyOps ops).nb_sorted_images +
          (Reporting.default.applyOps ops).nb_unsorted_images) % U32MOD) ∧
    (∀ r : Reporting,
      r.image_processed_sorted.nb_images = (r.nb_images + 1) % U32MOD ∧
      r.image_processed_sorted.nb_sorted_images =
        (r.nb_sorted_images + 1) % U32MOD ∧
      r.image_processed_sorted.nb_unsorted_images = r.nb_unsorted_images) ∧
    (∀ r : Reporting,
      r.image_processed_unsorted.nb_images = (r.nb_images + 1) % U32MOD ∧
      r.image_processed_unsorted.nb_unsorted_images =
        (r.nb_unsorted_images + 1) % U32MOD ∧
      r.image_processed_unsorted.nb_sorted_images = r.nb_sorted_images) ∧
    (∀ r : Reporting,
      r.error_on_image.nb_error_on_images =
        (r.nb_error_on_images + 1) % U32MOD ∧
      r.error_on_image.nb_images = r.nb_images ∧
      r.error_on_image.nb_sorted_images = r.nb_sorted_images ∧
      r.error_on_image.nb_unsorted_images = r.nb_unsorted_images) := by
  refine ⟨fun ops => imagesInv_applyOps ops Reporting.default rfl, ?_, ?_, ?_⟩ <;>
    intro r <;>
    simp [Reporting.image_processed_sorted, Reporting.image_processed_unsorted,
      Reporting.error_on_image]

/-! ## Claim C6 -/

/-- Within the `i32` range the saturating cast is plain truncation. -/
theorem f64AsI32_eq_trunc (x : ℚ) (h : |x| < 2147483648) :
    f64AsI32 x = truncToward0 x := by
  have h1 : (-2147483648 : ℚ) < x := (abs_lt.mp h).1
  have h2 : x < 2147483648 := (abs_lt.mp h).2
  have hb1 : (-2147483648 : ℤ) ≤ truncToward0 x := by
    unfold truncToward0
    split
    · have : (0 : ℤ) ≤ ⌊x⌋ := Int.floor_nonneg.mpr (by assumption)
      omega
    · have hx : (-2147483648 : ℚ) ≤ (⌈x⌉ : ℚ) :=
        le_of_lt (lt_of_lt_of_le h1 (Int.le_ceil x))
      exact_mod_cast hx
  have hb2 : truncToward0 x ≤ 2147483647 := by
    unfold truncToward0
    split
    · have hx : (⌊x⌋ : ℚ) < 2147483648 := lt_of_le_of_lt (Int.floor_le x) h2
      have : ⌊x⌋ < (2147483648 : ℤ) := by exact_mod_cast hx
      omega
    · have hx0 : x < 0 := lt_of_not_ge (by assumption)
      have : ⌈x⌉ ≤ (0 : ℤ) := Int.ceil_le.mpr (by exact_mod_cast le_of_lt hx0)
      omega
  unfold f64AsI32
  omega

/-- Claim C6, as stated, is false on the code: the cast `as i32`
truncates toward zero instead of rounding to the nearest integer.  At
latitude `3/16384` (a dyadic rational, so the `f64` product
`lat * 10000.0 = 1.8310546875` is exact) the code computes key
component `1` while rounding gives `2`. -/
theorem C6_counterexample :
    cache_key ((3 : ℚ)/16384) 0 ≠ cache_key_spec ((3 : ℚ)/16384) 0 := by
  have hfl : ⌊((3 : ℚ)/16384) * 10000⌋ = 1 := by norm_num
  have hrd : round (((3 : ℚ)/16384) * 10000) = 2 := by
    rw [round_eq]
    norm_num
  intro h
  have h1 : (cache_key ((3 : ℚ)/16384) 0).1 = (cache_key_spec ((3 : ℚ)/16384) 0).1 := by
    rw [h]
  unfold cache_key cache_key_spec f64AsI32 truncToward0 at h1
  rw [if_pos (by norm_num : (0 : ℚ) ≤ (3 : ℚ)/16384 * 10000)] at h1
  rw [hfl, hrd] at h1
  norm_num at h1

/-- Claim C6 (amended): the geocode cache key is
`((lat*10000) as i32, (long*10000) as i32)` — each coordinate scaled by
10000 and *truncated toward zero* (for nonnegative coordinates the
floor, for nonpositive ones the ceiling), not rounded to nearest. -/
theorem C6_cache_key_truncated (lat long : ℚ)
    (h1 : |lat * 10000| < 2147483648) (h2 : |long * 10000| < 2147483648) :
    cache_key lat long =
      (truncToward0 (lat * 10000), truncToward0 (long * 10000)) ∧
    (0 ≤ lat → (cache_key lat long).1 = ⌊lat * 10000⌋) ∧
    (lat ≤ 0 → (cache_key lat long).1 = ⌈lat * 10000⌉) := by
  refine ⟨?_, ?_, ?_⟩
  · unfold cache_key
    rw [f64AsI32_eq_trunc _ h1, f64AsI32_eq_trunc _ h2]
  · intro hl
    show f64AsI32 (lat * 10000) = ⌊lat * 10000⌋
    rw [f64AsI32_eq_trunc _ h1]
    unfold truncToward0
    rw [if_pos (mul_nonneg hl (by norm_num))]
  · intro hl
    show f64AsI32 (lat * 10000) = ⌈lat * 10000⌉
    rw [f64AsI32_eq_trunc _ h1]
    unfold truncToward0
    have hx : lat * 10000 ≤ 0 := mul_nonpos_iff.mpr (Or.inr ⟨hl, by norm_num⟩)
    by_cases h0 : 0 ≤ lat * 10000
    · have hz : lat * 10000 = 0 := le_antisymm hx h0
      rw [if_pos h0, hz]
      simp
    · rw [if_neg h0]

/-- Witness for C6: the amended theorem applied at `lat = 3/16384`,
`long = 0`. -/
theorem C6_cache_key_truncated_witness :
    |((3 : ℚ)/16384) * 10000| < 2147483648 ∧
    cache_key ((3 : ℚ)/16384) 0 =
      (truncToward0 (((3 : ℚ)/16384) * 10000), truncToward0 ((0 : ℚ) * 10000)) := by
  have hab : |((3 : ℚ)/16384) * 10000| < 2147483648 := by
    rw [abs_of_nonneg (by norm_num : (0 : ℚ) ≤ ((3 : ℚ)/16384) * 10000)]
    norm_num
  have hab0 : |(0 : ℚ) * 10000| < 2147483648 := by
    norm_num
  exact ⟨hab, (C6_cache_key_truncated ((3 : ℚ)/16384) 0 hab hab0).1⟩

/-! ## Claim C4 -/

/-- Claim C4, as stated, is false on the code: at coordinates exactly
`(0,0)` the geocoding bypass leaves the place at its initialization
value `Directory::parse("Unknown Place")`; the string `"Null Island"`
is produced nowhere (it appears in the repository only as hand-written
test data). -/
theorem C4_counterexample :
    (analyze_exif_place GEOCODING_CACHE (fun _ _ => "Somewhere") 0 0).1 ≠
      Directory.parse ("Null Island") ∧
    (analyze_exif_place GEOCODING_CACHE (fun _ _ => "Somewhere") 0 0).1 =
      Directory.parse ("Unknown Place") := by
  constructor
  · decide
  · decide

/-- Claim C4 (amended): for coordinates exactly `(0,0)` the pipeline
bypasses geocoding entirely — `find_place` is never reached, the
external search is not invoked and the cache is untouched — and the
place component is the sentinel `"Unknown Place"` (not
`"Null Island"`). -/
theorem C4_zero_zero_bypasses_geocoding :
    ∀ (st : LruCache) (search : ℚ → ℚ → String),
      analyze_exif_place st search 0 0 =
        (Directory.parse ("Unknown Place"), st, false) := by
  intro st search
  unfold analyze_exif_place
  simp

/-! ## Claim C7 -/

theorem mem_foldl_addDir_of_mem {q : FPath} :
    ∀ (l : List FPath) (fs : List FPath), q ∈ fs → q ∈ l.foldl addDir fs := by
  intro l
  induction l with
  | nil => intro fs h; exact h
  | cons a t ih =>
    intro fs h
    rw [List.foldl_cons]
    apply ih
    unfold addDir
    split
    · exact h
    · exact List.mem_cons_of_mem a h

theorem mem_foldl_addDir_of_mem_list {q : FPath} :
    ∀ (l : List FPath) (fs : List FPath), q ∈ l → q ∈ l.foldl addDir fs := by
  intro l
  induction l with
  | nil => intro fs h; cases h
  | cons a t ih =>
    intro fs h
    rw [List.foldl_cons]
    rcases List.mem_cons.mp h with rfl | h2
    · apply mem_foldl_addDir_of_mem
      unfold addDir
      split
      · assumption
      · exact List.mem_cons_self q _
    · exact ih _ h2

theorem foldl_addDir_of_all_mem :
    ∀ (l : List FPath) (fs : List FPath), (∀ x ∈ l, x ∈ fs) → l.foldl addDir fs = fs := by
  intro l
  induction l with
  | nil => intro fs _; rfl
  | cons a t ih =>
    intro fs h
    have ha : a ∈ fs := h a (List.mem_cons_self a t)
    show List.foldl addDir (addDir fs a) t = fs
    rw [addDir, if_pos ha]
    exact ih fs (fun x hx => h x (List.mem_cons_of_mem a hx))

theorem mem_foldl_addDir :
    ∀ (l : List FPath) (fs : List FPath) (q : FPath),
      q ∈ l.foldl addDir fs → q ∈ fs ∨ q ∈ l := by
  intro l
  induction l with
  | nil => intro fs q h; exact Or.inl h
  | cons a t ih =>
    intro fs q h
    rcases ih (addDir fs a) q h with h2 | h2
    · unfold addDir at h2
      split at h2
      · exact Or.inl h2
      · rcases List.mem_cons.mp h2 with rfl | h3
        · exact Or.inr (List.mem_cons_self q t)
        · exact Or.inl h3
    · exact Or.inr (List.mem_cons_of_mem a h2)

theorem length_le_of_mem_inits :
    ∀ (p q : FPath), q ∈ p.inits → q.length ≤ p.length := by
  intro p
  induction p with
  | nil =>
    intro q h
    simp only [List.inits] at h
    rcases List.mem_singleton.mp h with rfl
    exact Nat.le_refl 0
  | cons a t ih =>
    intro q h
    rw [List.inits_cons] at h
    rcases List.mem_cons.mp h with rfl | h2
    · exact Nat.zero_le _
    · obtain ⟨q', hq', rfl⟩ := List.mem_map.mp h2
      simpa using ih q' hq'

/-- The recursive creation creates the requested directory (when it is
not the degenerate empty path). -/
theorem mem_mkdirRecursive_self (fs : List FPath) (p : FPath) (hp : p ≠ []) :
    p ∈ mkdirRecursive fs p := by
  unfold mkdirRecursive
  apply mem_foldl_addDir_of_mem_list
  rw [List.mem_filter]
  refine ⟨?_, by simpa using hp⟩
  rw [List.mem_inits]

/-- Everything present stays present across a recursive creation. -/
theorem mem_mkdirRecursive_of_mem (fs : List FPath) (p q : FPath) (h : q ∈ fs) :
    q ∈ mkdirRecursive fs p :=
  mem_foldl_addDir_of_mem _ _ h

/-- The recursive creation adds only ancestors of the requested path:
anything new is at most as long as the path created. -/
theorem mem_mkdirRecursive (fs : List FPath) (p q : FPath)
    (h : q ∈ mkdirRecursive fs p) : q ∈ fs ∨ q.length ≤ p.length := by
  unfold mkdirRecursive at h
  rcases mem_foldl_addDir _ _ _ h with h2 | h2
  · exact Or.inl h2
  · exact Or.inr (length_le_of_mem_inits p q (List.mem_filter.mp h2).1)

/-- The recursive creation is idempotent: repeating it changes nothing
(in particular it succeeds when the directory already exists). -/
theorem mkdirRecursive_idem (fs : List FPath) (p : FPath) :
    mkdirRecursive (mkdirRecursive fs p) p = mkdirRecursive fs p := by
  unfold mkdirRecursive
  apply foldl_addDir_of_all_mem
  intro x hx
  exact mem_foldl_addDir_of_mem_list _ _ hx

theorem create_subdir_fst (st : Sys) (parent sub : FPath) :
    (create_subdir st parent sub).1 = parent ++ sub := by
  unfold create_subdir
  split <;> rfl

theorem create_subdir_files (st : Sys) (parent sub : FPath) :
    (create_subdir st parent sub).2.files = st.files := by
  unfold create_subdir
  split <;> rfl

theorem create_subdir_hit (st : Sys) (parent sub : FPath)
    (h : parent ++ sub ∈ st.created_dirs_cache) :
    create_subdir st parent sub = (parent ++ sub, st) := by
  unfold create_subdir
  rw [if_pos h]

theorem create_subdir_cache_mem (st : Sys) (parent sub : FPath) :
    parent ++ sub ∈ (create_subdir st parent sub).2.created_dirs_cache := by
  unfold create_subdir
  split
  · assumption
  · exact List.mem_cons_self _ _

theorem create_subdir_dirs (st : Sys) (parent sub : FPath) (q : FPath)
    (h : q ∈ (create_subdir st parent sub).2.dirs) :
    q ∈ st.dirs ∨ q.length ≤ (parent ++ sub).length := by
  unfold create_subdir at h
  split at h
  · exact Or.inl h
  · exact mem_mkdirRecursive _ _ _ h

/-- Claim C7: `create_subdir(parent, child)` always returns
`parent.join(child)`; on a cache miss it creates the directory with an
idempotent recursive creation (success whether or not the directory is
already on disk, and repeating the creation is a no-op) and inserts the
path into `CREATED_DIRS_CACHE`; hence a second identical call is a pure
cache hit that returns the same path with the state unchanged and no
error (the model's `create_subdir` is total). -/
theorem C7_create_subdir_ensure (st : Sys) (parent child : FPath) :
    (create_subdir st parent child).1 = parent ++ child ∧
    (parent ++ child ∉ st.created_dirs_cache → parent ++ child ≠ [] →
      parent ++ child ∈ (create_subdir st parent child).2.dirs) ∧
    parent ++ child ∈ (create_subdir st parent child).2.created_dirs_cache ∧
    (∀ fs : List FPath, mkdirRecursive (mkdirRecursive fs (parent ++ child))
        (parent ++ child) = mkdirRecursive fs (parent ++ child)) ∧
    create_subdir (create_subdir st parent child).2 parent child =
      (parent ++ child, (create_subdir st parent child).2) := by
  refine ⟨create_subdir_fst st parent child, ?_, create_subdir_cache_mem st parent child,
    fun fs => mkdirRecursive_idem fs (parent ++ child), ?_⟩
  · intro hmiss hne
    unfold create_subdir
    rw [if_neg hmiss]
    exact mem_mkdirRecursive_self st.dirs (parent ++ child) hne
  · exact create_subdir_hit _ parent child (create_subdir_cache_mem st parent child)

/-! ## Claim C5 -/

theorem find?_key {k : ℤ × ℤ} {l : List ((ℤ × ℤ) × String)}
    {e : (ℤ × ℤ) × String} (h : l.find? (fun x => x.1 = k) = some e) :
    e.1 = k := by
  have h2 := List.find?_some h
  simpa using h2

theorem LruCache.get_none (c : LruCache) (k : ℤ × ℤ)
    (h : c.entries.find? (fun x => x.1 = k) = none) : c.get k = (none, c) := by
  unfold LruCache.get
  rw [h]

theorem LruCache.get_some (c : LruCache) (k : ℤ × ℤ) (e : (ℤ × ℤ) × String)
    (h : c.entries.find? (fun x => x.1 = k) = some e) :
    c.get k = (some e.2, ⟨e :: c.entries.eraseP (fun x => x.1 = k), c.cap⟩) := by
  unfold LruCache.get
  rw [h]

/-- Whatever branch `put` takes, the new key-value pair ends up at the
most-recently-used position and the capacity is unchanged. -/
theorem LruCache.put_front (c : LruCache) (k : ℤ × ℤ) (v : String) :
    ∃ rest, (c.put k v).entries = (k, v) :: rest ∧ (c.put k v).cap = c.cap := by
  unfold LruCache.put
  split
  · exact ⟨_, rfl, rfl⟩
  · split
    · exact ⟨_, rfl, rfl⟩
    · exact ⟨_, rfl, rfl⟩

/-- After any `find_place` call the requested key sits at the
most-recently-used position, holding the returned place. -/
theorem find_place_result (st : LruCache) (search : ℚ → ℚ → String)
    (lat long : ℚ) :
    ∃ v rest,
      (find_place st search lat long).1 = some v ∧
      (find_place st search lat long).2.1.entries =
        (cache_key lat long, v) :: rest ∧
      (find_place st search lat long).2.1.cap = st.cap := by
  cases hf : st.entries.find? (fun x => x.1 = cache_key lat long) with
  | none =>
    have hg := LruCache.get_none st _ hf
    obtain ⟨rest, h1, h2⟩ :=
      LruCache.put_front st (cache_key lat long) (search lat long)
    unfold find_place
    rw [hg]
    exact ⟨search lat long, rest, rfl, h1, h2⟩
  | some e =>
    have hg := LruCache.get_some st _ e hf
    have hk : e.1 = cache_key lat long := find?_key hf
    unfold find_place
    rw [hg]
    refine ⟨e.2, st.entries.eraseP (fun x => x.1 = cache_key lat long), rfl, ?_, rfl⟩
    show e :: _ = (cache_key lat long, e.2) :: _
    rw [← hk]

/-- A `find_place` request whose key is already at the front of the
cache is a pure hit: cached value, no external search. -/
theorem find_place_hit_front (st : LruCache) (search : ℚ → ℚ → String)
    (lat long : ℚ) (v : String) (rest : List ((ℤ × ℤ) × String))
    (h : st.entries = (cache_key lat long, v) :: rest) :
    (find_place st search lat long).1 = some v ∧
    (find_place st search lat long).2.2 = false := by
  have hf : st.entries.find? (fun x => x.1 = cache_key lat long) =
      some (cache_key lat long, v) := by
    rw [h]
    exact List.find?_cons_of_pos _ (by simp)
  have hg := LruCache.get_some st _ _ hf
  unfold find_place
  rw [hg]
  exact ⟨rfl, rfl⟩

theorem find_place_repeat (st : LruCache) (search : ℚ → ℚ → String)
    (lat long : ℚ) :
    (find_place ((find_place st search lat long).2.1) search lat long).2.2 =
      false ∧
    (find_place ((find_place st search lat long).2.1) search lat long).1 =
      (find_place st search lat long).1 := by
  obtain ⟨v, rest, h1, h2, _⟩ := find_place_result st search lat long
  have h3 := find_place_hit_front ((find_place st search lat long).2.1)
    search lat long v rest h2
  exact ⟨h3.2, h3.1.trans h1.symm⟩

/-- One `find_place` call keeps the entry count within the capacity. -/
theorem find_place_capacity (st : LruCache) (search : ℚ → ℚ → String)
    (lat long : ℚ) (hle : st.entries.length ≤ st.cap) (hpos : 0 < st.cap) :
    (find_place st search lat long).2.1.entries.length ≤ st.cap := by
  cases hf : st.entries.find? (fun x => x.1 = cache_key lat long) with
  | some e =>
    have hg := LruCache.get_some st _ e hf
    unfold find_place
    rw [hg]
    show (e :: st.entries.eraseP (fun x => x.1 = cache_key lat long)).length ≤ st.cap
    have hmem := List.mem_of_find?_eq_some hf
    have hp := List.find?_some hf
    have hlen := @List.length_eraseP_add_one _
      (fun x => decide (x.1 = cache_key lat long)) st.entries e hmem hp
    rw [List.length_cons]
    omega
  | none =>
    have hg := LruCache.get_none st _ hf
    unfold find_place
    rw [hg]
    show (st.put (cache_key lat long) (search lat long)).entries.length ≤ st.cap
    unfold LruCache.put
    rw [hf]
    rw [if_neg (by simp)]
    split
    · rw [List.length_cons, List.length_dropLast]
      omega
    · rw [List.length_cons]
      omega

/-- A miss on a full cache evicts the least-recently-used entry: the
evicted key is gone, so requesting it again invokes the external
search. -/
theorem find_place_evicts (st : LruCache) (search : ℚ → ℚ → String)
    (front : List ((ℤ × ℤ) × String)) (kv : (ℤ × ℤ) × String)
    (lat2 long2 lat3 long3 : ℚ)
    (hentries : st.entries = front ++ [kv])
    (hcap : st.entries.length = st.cap)
    (hnodup : (st.entries.map Prod.fst).Nodup)
    (hnew : ∀ e ∈ st.entries, e.1 ≠ cache_key lat2 long2)
    (hk3 : kv.1 = cache_key lat3 long3) :
    (∀ e ∈ (find_place st search lat2 long2).2.1.entries,
        e.1 ≠ cache_key lat3 long3) ∧
    (find_place ((find_place st search lat2 long2).2.1) search lat3 long3).2.2 =
      true := by
  have hf : st.entries.find? (fun x => x.1 = cache_key lat2 long2) = none :=
    List.find?_eq_none.mpr (fun x hx => by simpa using hnew x hx)
  have hg := LruCache.get_none st _ hf
  have hst2 : (find_place st search lat2 long2).2.1.entries =
      (cache_key lat2 long2, search lat2 long2) :: front := by
    unfold find_place
    rw [hg]
    show (st.put (cache_key lat2 long2) (search lat2 long2)).entries = _
    unfold LruCache.put
    rw [hf]
    rw [if_neg (by simp)]
    rw [if_pos (le_of_eq hcap.symm)]
    rw [hentries, List.dropLast_concat]
  have hkv_mem : kv ∈ st.entries := by
    rw [hentries]
    exact List.mem_append_right _ (List.mem_singleton.mpr rfl)
  have hk2ne : kv.1 ≠ cache_key lat2 long2 := hnew kv hkv_mem
  have hnotin : ∀ e ∈ (find_place st search lat2 long2).2.1.entries,
      e.1 ≠ cache_key lat3 long3 := by
    rw [hst2]
    intro e he
    rcases List.mem_cons.mp he with rfl | hef
    · intro hcontra
      exact hk2ne (by rw [hk3, ← hcontra])
    · intro hcontra
      have hmap : st.entries.map Prod.fst = front.map Prod.fst ++ [kv.1] := by
        rw [hentries]
        simp
      rw [hmap] at hnodup
      rcases List.nodup_append.mp hnodup with ⟨_, _, hdisj⟩
      have he1 : e.1 ∈ front.map Prod.fst := List.mem_map_of_mem Prod.fst hef
      exact hdisj he1 (by rw [hcontra, ← hk3]; exact List.mem_singleton.mpr rfl)
  refine ⟨hnotin, ?_⟩
  have hf3 : (find_place st search lat2 long2).2.1.entries.find?
      (fun x => x.1 = cache_key lat3 long3) = none :=
    List.find?_eq_none.mpr (fun x hx => by simpa using hnotin x hx)
  have hg3 := LruCache.get_none _ _ hf3
  generalize hset : (find_place st search lat2 long2).2.1 = st2 at hg3 ⊢
  unfold find_place
  rw [hg3]

/-- Claim C5: requesting the same quantized coordinates twice invokes
the external search at most once (the second request is a cache hit
returning the cached place, with no external call); `GEOCODING_CACHE`
starts empty with capacity 1000 and one call never pushes the entry
count of a cache past its capacity; and a miss on a full cache evicts
the least-recently-used entry, after which a request for the evicted
key invokes the external search again. -/
theorem C5_geocode_cache_lru :
    (∀ (st : LruCache) (search : ℚ → ℚ → String) (lat long : ℚ),
      (find_place ((find_place st search lat long).2.1) search lat long).2.2 =
        false ∧
      (find_place ((find_place st search lat long).2.1) search lat long).1 =
        (find_place st search lat long).1) ∧
    GEOCODING_CACHE.cap = 1000 ∧
    GEOCODING_CACHE.entries = [] ∧
    (∀ (st : LruCache) (search : ℚ → ℚ → String) (lat long : ℚ),
      st.entries.length ≤ st.cap → 0 < st.cap →
      (find_place st search lat long).2.1.entries.length ≤ st.cap ∧
      (find_place st search lat long).2.1.cap = st.cap) ∧
    (∀ (st : LruCache) (search : ℚ → ℚ → String)
      (front : List ((ℤ × ℤ) × String)) (kv : (ℤ × ℤ) × String)
      (lat2 long2 lat3 long3 : ℚ),
      st.entries = front ++ [kv] →
      st.entries.length = st.cap →
      (st.entries.map Prod.fst).Nodup →
      (∀ e ∈ st.entries, e.1 ≠ cache_key lat2 long2) →
      kv.1 = cache_key lat3 long3 →
      (∀ e ∈ (find_place st search lat2 long2).2.1.entries,
          e.1 ≠ cache_key lat3 long3) ∧
      (find_place ((find_place st search lat2 long2).2.1) search
          lat3 long3).2.2 = true) := by
  refine ⟨find_place_repeat, rfl, rfl, ?_, find_place_evicts⟩
  intro st search lat long hle hpos
  obtain ⟨v, rest, _, _, hcap⟩ := find_place_result st search lat long
  exact ⟨find_place_capacity st search lat long hle hpos, hcap⟩

/-- Witness for C7: a fresh state, fresh path; the miss branch creates
the directory on disk. -/
theorem C7_create_subdir_ensure_witness :
    ((["r"] : FPath) ++ ["d"] ∉ (Sys.mk [] [] []).created_dirs_cache) ∧
    ((["r"] : FPath) ++ ["d"] ≠ []) ∧
    (["r"] : FPath) ++ ["d"] ∈ (create_subdir ⟨[], [], []⟩ ["r"] ["d"]).2.dirs := by
  refine ⟨by decide, by decide, ?_⟩
  exact (C7_create_subdir_ensure ⟨[], [], []⟩ ["r"] ["d"]).2.1 (by decide) (by decide)

/-- Casting `f64 as i32` on a small natural literal is that literal. -/
theorem f64AsI32_ofNat (n : ℕ) (h : n ≤ 2147483647) :
    f64AsI32 ((n : ℚ)) = (n : ℤ) := by
  unfold f64AsI32 truncToward0
  rw [if_pos (by positivity)]
  rw [Int.floor_natCast]
  omega

/-- Witness for C5: the capacity bound at an empty two-slot cache, and
the eviction scenario at a full two-slot cache holding keys `(1,1)`
(most recent) and `(2,2)` (least recent): a request quantizing to the
fresh key `(3,0)` evicts `(2,2)`, and re-requesting coordinates for
`(2,2)` hits the external search again. -/
theorem C5_geocode_cache_lru_witness :
    (find_place (⟨[], 2⟩ : LruCache) (fun _ _ => "P") ((1 : ℚ)/10000) 0).2.1.entries.length ≤
      (⟨[], 2⟩ : LruCache).cap ∧
    (find_place ((find_place (⟨[((1, 1), "A"), ((2, 2), "B")], 2⟩ : LruCache)
        (fun _ _ => "P") ((3 : ℚ)/10000) 0).2.1)
      (fun _ _ => "P") ((2 : ℚ)/10000) ((2 : ℚ)/10000)).2.2 = true := by
  have hk2 : cache_key ((3 : ℚ)/10000) 0 = (3, 0) := by
    unfold cache_key
    rw [show ((3 : ℚ)/10000) * 10000 = (((3 : ℕ) : ℚ)) by norm_num,
        show ((0 : ℚ) * 10000) = (((0 : ℕ) : ℚ)) by norm_num,
        f64AsI32_ofNat 3 (by norm_num), f64AsI32_ofNat 0 (by norm_num)]
    norm_num
  have hk3 : cache_key ((2 : ℚ)/10000) ((2 : ℚ)/10000) = (2, 2) := by
    unfold cache_key
    rw [show ((2 : ℚ)/10000) * 10000 = (((2 : ℕ) : ℚ)) by norm_num,
        f64AsI32_ofNat 2 (by norm_num)]
    norm_num
  constructor
  · exact (C5_geocode_cache_lru.2.2.2.1 ⟨[], 2⟩ (fun _ _ => "P")
      ((1 : ℚ)/10000) 0 (by decide) (by decide)).1
  · refine (C5_geocode_cache_lru.2.2.2.2 ⟨[((1, 1), "A"), ((2, 2), "B")], 2⟩
      (fun _ _ => "P") [((1, 1), "A")] ((2, 2), "B")
      ((3 : ℚ)/10000) 0 ((2 : ℚ)/10000) ((2 : ℚ)/10000)
      rfl rfl (by decide) ?_ ?_).2
    · rw [hk2]
      decide
    · rw [hk3]

/-! ## Claim C3 -/

/-- If every candidate of the remaining attempts collides, the retry
loop exhausts its fuel. -/
theorem dupSearch_exhaust (st : Sys) (path : FPath) (stem : String)
    (ext : Option String) (rng : Nat → Nat) :
    ∀ (fuel attempt : Nat),
      (∀ j, j < fuel →
        st.pathExists (dupCandidate path stem ext rng (attempt + j)) = true) →
      dupSearch st path stem ext rng attempt fuel = .error .exhausted := by
  intro fuel
  induction fuel with
  | zero => intro attempt _; rfl
  | succ n ih =>
    intro attempt h
    have h0 := h 0 (Nat.succ_pos n)
    rw [Nat.add_zero] at h0
    show (if st.pathExists (dupCandidate path stem ext rng attempt) then
        dupSearch st path stem ext rng (attempt + 1) n
      else .ok (some (dupCandidate path stem ext rng attempt), true)) =
        .error .exhausted
    rw [h0, if_pos rfl]
    apply ih (attempt + 1)
    intro j hj
    have := h (j + 1) (by omega)
    rwa [show attempt + 1 + j = attempt + (j + 1) by omega]

/-- The retry loop returns the first non-colliding candidate, recording
the metric on that exit. -/
theorem dupSearch_first_free (st : Sys) (path : FPath) (stem : String)
    (ext : Option String) (rng : Nat → Nat) :
    ∀ (fuel attempt k : Nat), k < fuel →
      st.pathExists (dupCandidate path stem ext rng (attempt + k)) = false →
      (∀ j, j < k →
        st.pathExists (dupCandidate path stem ext rng (attempt + j)) = true) →
      dupSearch st path stem ext rng attempt fuel =
        .ok (some (dupCandidate path stem ext rng (attempt + k)), true) := by
  intro fuel
  induction fuel with
  | zero => intro attempt k hk; exact absurd hk (Nat.not_lt_zero k)
  | succ n ih =>
    intro attempt k hk hfree hbusy
    show (if st.pathExists (dupCandidate path stem ext rng attempt) then
        dupSearch st path stem ext rng (attempt + 1) n
      else .ok (some (dupCandidate path stem ext rng attempt), true)) = _
    cases k with
    | zero =>
      rw [Nat.add_zero] at hfree
      rw [hfree, if_neg (by simp), Nat.add_zero]
    | succ m =>
      have h0 := hbusy 0 (Nat.succ_pos m)
      rw [Nat.add_zero] at h0
      rw [h0, if_pos rfl]
      have hres := ih (attempt + 1) m (by omega)
        (by rwa [show attempt + 1 + m = attempt + (m + 1) by omega])
        (fun j hj => by
          have := hbusy (j + 1) (by omega)
          rwa [show attempt + 1 + j = attempt + (j + 1) by omega])
      rwa [show attempt + 1 + m = attempt + (m + 1) by omega] at hres

theorem dotPositions_nil {s : String} (h : '.' ∈ s.data → False) :
    dotPositions s = [] := by
  unfold dotPositions
  rw [List.filter_eq_nil_iff]
  intro i hi
  simp only [decide_eq_true_eq]
  intro hdot
  apply h
  rw [← hdot]
  have hlen : i < s.data.length := List.mem_range.mp hi
  rw [List.getD_eq_getElem _ _ hlen]
  exact List.getElem_mem hlen

/-- A name with no dot has itself as stem and no extension. -/
theorem rustSplitName_no_dot {s : String} (h : '.' ∈ s.data → False) :
    rustSplitName s = (s, none) := by
  unfold rustSplitName
  rw [dotPositions_nil h]
  rfl

/-- Claim C3 (amended): `check_for_duplicate_and_rename` rejects an
existing-directory target with an error distinct from exhaustion;
returns a free target unchanged with no metric; on an occupied target
tries at most 1000 candidates, each built from a fresh random integer
in `[100, 100000)` by renaming to `{stem}_duplicate_{n}` and then
*replacing that name's extension* with the original one — which equals
`"{stem}_duplicate_{n}{ext}"` exactly when the synthesized name has no
dot (in particular whenever the stem has none) — returning the first
free candidate while recording the duplicate-renamed metric exactly
once, and failing with the exhaustion error when all 1000 candidates
collide. -/
theorem C3_check_for_duplicate_and_rename (st : Sys) (rng : Nat → Nat)
    (file : FPath) :
    (st.isDir file = true →
      check_for_duplicate_and_rename st rng file = .error .dirError) ∧
    DupError.dirError ≠ DupError.exhausted ∧
    (st.isDir file = false → st.pathExists file = false →
      check_for_duplicate_and_rename st rng file = .ok (none, false)) ∧
    (∀ i, 100 ≤ randomFrom rng i ∧ randomFrom rng i < 100000) ∧
    (∀ k, st.isDir file = false → st.pathExists file = true → k < 1000 →
      st.pathExists (dupCandidate file (rustSplitName (fileName file)).1
        (rustSplitName (fileName file)).2 rng k) = false →
      (∀ j, j < k →
        st.pathExists (dupCandidate file (rustSplitName (fileName file)).1
          (rustSplitName (fileName file)).2 rng j) = true) →
      check_for_duplicate_and_rename st rng file =
        .ok (some (dupCandidate file (rustSplitName (fileName file)).1
          (rustSplitName (fileName file)).2 rng k), true)) ∧
    (st.isDir file = false → st.pathExists file = true →
      (∀ j, j < 1000 →
        st.pathExists (dupCandidate file (rustSplitName (fileName file)).1
          (rustSplitName (fileName file)).2 rng j) = true) →
      check_for_duplicate_and_rename st rng file = .error .exhausted) ∧
    (∀ (path : FPath) (stem e : String) (i : Nat), e ≠ "" →
      ('.' ∈ (stem ++ "_duplicate_" ++ toString (randomFrom rng i)).data → False) →
      dupCandidate path stem (some e) rng i =
        path.dropLast ++
          [stem ++ "_duplicate_" ++ toString (randomFrom rng i) ++ "." ++ e]) ∧
    (∀ (path : FPath) (stem : String) (i : Nat),
      dupCandidate path stem none rng i =
        path.dropLast ++ [stem ++ "_duplicate_" ++ toString (randomFrom rng i)]) := by
  refine ⟨?_, by decide, ?_, ?_, ?_, ?_, ?_, ?_⟩
  · intro h
    unfold check_for_duplicate_and_rename
    rw [h, if_pos rfl]
  · intro hdir hex
    unfold check_for_duplicate_and_rename
    rw [hdir, hex]
    rw [if_neg (by simp), if_pos (by simp)]
  · intro i
    unfold randomFrom
    have := Nat.mod_lt (rng i) (show 0 < 99900 by omega)
    omega
  · intro k hdir hex hk hfree hbusy
    unfold check_for_duplicate_and_rename
    rw [hdir, hex]
    rw [if_neg (by simp), if_neg (by simp)]
    have := dupSearch_first_free st file (rustSplitName (fileName file)).1
      (rustSplitName (fileName file)).2 rng 1000 0 k hk
      (by rwa [Nat.zero_add]) (fun j hj => by rw [Nat.zero_add]; exact hbusy j hj)
    rwa [Nat.zero_add] at this
  · intro hdir hex hbusy
    unfold check_for_duplicate_and_rename
    rw [hdir, hex]
    rw [if_neg (by simp), if_neg (by simp)]
    exact dupSearch_exhaust st file _ _ rng 1000 0
      (fun j hj => by rw [Nat.zero_add]; exact hbusy j hj)
  · intro path stem e i he hnodot
    unfold dupCandidate withFileName setExtension
    rw [List.getLast?_concat]
    show (path.dropLast ++ [stem ++ "_duplicate_" ++ toString (randomFrom rng i)]).dropLast
        ++ [setExtName (stem ++ "_duplicate_" ++ toString (randomFrom rng i)) e] = _
    rw [List.dropLast_concat]
    unfold setExtName
    rw [rustSplitName_no_dot hnodot, if_neg he]
    simp [String.append_assoc]
  · intro path stem i
    rfl

/-- Claim C3, as stated, is false on the code for file names whose stem
contains a dot: for an existing `a.b.c` (stem `a.b`, extension `c`,
fresh random integer 100) the claim's candidate is
`a.b_duplicate_100.c`, but `set_extension` *replaces* the extension of
the intermediate name `a.b_duplicate_100`, so the code synthesizes and
returns `a.c`. -/
theorem C3_counterexample :
    check_for_duplicate_and_rename ⟨[], [["a.b.c"]], []⟩ (fun _ => 0) [("a.b.c")] =
      .ok (some [("a.c")], true) ∧
    (rustSplitName ("a.b.c")).1 = "a.b" ∧
    (rustSplitName ("a.b.c")).2 = some ("c") ∧
    randomFrom (fun _ => 0) 0 = 100 ∧
    ("a.c") ≠ "a.b" ++ "_duplicate_" ++ toString (100 : Nat) ++ "." ++ "c" := by
  refine ⟨?_, by decide, by decide, by decide, by decide⟩
  decide

/-- Witness for C3: an existing `foo.txt` whose first candidate
`foo_duplicate_100.txt` is free is renamed to it, with the metric
recorded. -/
theorem C3_check_for_duplicate_and_rename_witness :
    Sys.isDir ⟨[], [["foo.txt"]], []⟩ [("foo.txt")] = false ∧
    Sys.pathExists ⟨[], [["foo.txt"]], []⟩ [("foo.txt")] = true ∧
    check_for_duplicate_and_rename ⟨[], [["foo.txt"]], []⟩ (fun _ => 0) [("foo.txt")] =
      .ok (some [("foo_duplicate_100.txt")], true) := by
  refine ⟨by decide, by decide, ?_⟩
  have h := (C3_check_for_duplicate_and_rename ⟨[], [["foo.txt"]], []⟩
    (fun _ => 0) [("foo.txt")]).2.2.2.2.1 0 (by decide) (by decide) (by decide)
    (by decide) (fun j hj => absurd hj (Nat.not_lt_zero j))
  rw [h]
  decide

/-! ## Claim C1 -/

theorem create_subdirs_chain_fst :
    ∀ (segs : List String) (st : Sys) (base : FPath),
      (create_subdirs_chain st base segs).1 = base ++ segs := by
  intro segs
  induction segs with
  | nil =>
    intro st base
    show base = base ++ []
    rw [List.append_nil]
  | cons seg rest ih =>
    intro st base
    show (create_subdirs_chain (create_subdir st base [seg]).2
        (create_subdir st base [seg]).1 rest).1 = base ++ seg :: rest
    rw [ih, create_subdir_fst]
    simp

theorem create_subdirs_chain_files :
    ∀ (segs : List String) (st : Sys) (base : FPath),
      (create_subdirs_chain st base segs).2.files = st.files := by
  intro segs
  induction segs with
  | nil => intro st base; rfl
  | cons seg rest ih =>
    intro st base
    show (create_subdirs_chain (create_subdir st base [seg]).2
        (create_subdir st base [seg]).1 rest).2.files = st.files
    rw [ih, create_subdir_files]

theorem create_subdirs_chain_dirs :
    ∀ (segs : List String) (st : Sys) (base : FPath) (q : FPath),
      q ∈ (create_subdirs_chain st base segs).2.dirs →
      q ∈ st.dirs ∨ q.length ≤ base.length + segs.length := by
  intro segs
  induction segs with
  | nil => intro st base q h; exact Or.inl h
  | cons seg rest ih =>
    intro st base q h
    rcases ih (create_subdir st base [seg]).2 (create_subdir st base [seg]).1 q h
      with h2 | h2
    · rcases create_subdir_dirs st base [seg] q h2 with h3 | h3
      · exact Or.inl h3
      · right
        simp only [List.length_append, List.length_singleton, List.length_cons,
          List.length_nil] at h3 ⊢
        omega
    · right
      rw [create_subdir_fst] at h2
      simp only [List.length_append, List.length_singleton, List.length_cons,
        List.length_nil] at h2 ⊢
      omega

/-- Claim C1: for a file whose metadata was extracted, when the
destination `<sorted_root>/<period>/<place>[/<device>]/<original_filename>`
is free, the sorted copy lands exactly there, where the `<device>`
segment is present if and only if `use_device` is set (the `if` in the
destination below), and no duplicate-rename metric fires. -/
theorem C1_sorted_destination_layout (st : Sys) (rng : Nat → Nat)
    (file : FPath) (exif_data : ExifData)
    (configuration : GlobalConfiguration)
    (hsrc : file ∈ st.files)
    (hnofile : configuration.sorted_images_directory ++
        ([exif_data.year_month.get, exif_data.place.get] ++
          (if configuration.use_device then [exif_data.device.get] else [])) ++
        [fileName file] ∉ st.files)
    (hnodir : configuration.sorted_images_directory ++
        ([exif_data.year_month.get, exif_data.place.get] ++
          (if configuration.use_device then [exif_data.device.get] else [])) ++
        [fileName file] ∉ st.dirs) :
    ∃ st4 : Sys,
      sort_image_from_exif_data st rng file exif_data configuration =
        (.ok st4, false) ∧
      st4.files = (configuration.sorted_images_directory ++
        ([exif_data.year_month.get, exif_data.place.get] ++
          (if configuration.use_device then [exif_data.device.get] else [])) ++
        [fileName file]) :: st.files := by
  have hfst : (ensure_target_dirs st exif_data configuration).1 =
      configuration.sorted_images_directory ++
        ([exif_data.year_month.get, exif_data.place.get] ++
          (if configuration.use_device then [exif_data.device.get] else [])) :=
    create_subdirs_chain_fst _ st configuration.sorted_images_directory
  have hfiles : (ensure_target_dirs st exif_data configuration).2.files = st.files :=
    create_subdirs_chain_files _ st configuration.sorted_images_directory
  have hpb : (ensure_target_dirs st exif_data configuration).1 ++ [fileName file] =
      configuration.sorted_images_directory ++
        ([exif_data.year_month.get, exif_data.place.get] ++
          (if configuration.use_device then [exif_data.device.get] else [])) ++
        [fileName file] := by
    rw [hfst]
  have hnd : (ensure_target_dirs st exif_data configuration).1 ++ [fileName file] ∉
      (ensure_target_dirs st exif_data configuration).2.dirs := by
    intro h
    rcases create_subdirs_chain_dirs _ st configuration.sorted_images_directory _ h
      with h2 | h2
    · rw [hpb] at h2
      exact hnodir h2
    · rw [List.length_append, hfst] at h2
      simp only [List.length_append, List.length_singleton] at h2
      omega
  have hnf : (ensure_target_dirs st exif_data configuration).1 ++ [fileName file] ∉
      (ensure_target_dirs st exif_data configuration).2.files := by
    rw [hfiles, hpb]
    exact hnofile
  have hdirb : (ensure_target_dirs st exif_data configuration).2.isDir
      ((ensure_target_dirs st exif_data configuration).1 ++ [fileName file]) = false := by
    unfold Sys.isDir
    exact decide_eq_false hnd
  have hexb : (ensure_target_dirs st exif_data configuration).2.pathExists
      ((ensure_target_dirs st exif_data configuration).1 ++ [fileName file]) = false := by
    unfold Sys.pathExists
    rw [decide_eq_false hnf, decide_eq_false hnd]
    rfl
  have hdup : check_for_duplicate_and_rename
      (ensure_target_dirs st exif_data configuration).2 rng
      ((ensure_target_dirs st exif_data configuration).1 ++ [fileName file]) =
      .ok (none, false) := by
    unfold check_for_duplicate_and_rename
    rw [hdirb, hexb]
    rw [if_neg (by simp), if_pos (by simp)]
  have hcopy : copyFile (ensure_target_dirs st exif_data configuration).2 file
      ((ensure_target_dirs st exif_data configuration).1 ++ [fileName file]) =
      .ok ⟨(ensure_target_dirs st exif_data configuration).2.created_dirs_cache,
           ((ensure_target_dirs st exif_data configuration).1 ++ [fileName file]) :: st.files,
           (ensure_target_dirs st exif_data configuration).2.dirs⟩ := by
    unfold copyFile
    rw [if_neg (not_not_intro (hfiles ▸ hsrc)), if_neg hnd, if_neg hnf, hfiles]
  rw [hpb] at hdup hcopy
  refine ⟨⟨(ensure_target_dirs st exif_data configuration).2.created_dirs_cache,
      (configuration.sorted_images_directory ++
        ([exif_data.year_month.get, exif_data.place.get] ++
          (if configuration.use_device then [exif_data.device.get] else [])) ++
        [fileName file]) :: st.files,
      (ensure_target_dirs st exif_data configuration).2.dirs⟩, ?_, rfl⟩
  unfold sort_image_from_exif_data
  rw [hpb, hcopy, hdup]

/-- Witness for C1: one image sorted with `use_device` unset and one
with it set; the device segment appears exactly in the second. -/
theorem C1_sorted_destination_layout_witness :
    (∃ st4 : Sys,
      sort_image_from_exif_data ⟨[], [["DSCN.jpg"]], []⟩ (fun _ => 0) ["DSCN.jpg"]
        ⟨⟨"2008 10"⟩, 0, 0, ⟨"Arezzo"⟩, ⟨"COOLPIXP6000"⟩⟩
        ⟨false, [], ["out"], ["u"]⟩ = (.ok st4, false) ∧
      st4.files = (["out"] ++ (["2008 10", "Arezzo"] ++ []) ++ ["DSCN.jpg"]) ::
        [["DSCN.jpg"]]) ∧
    (∃ st4 : Sys,
      sort_image_from_exif_data ⟨[], [["DSCN.jpg"]], []⟩ (fun _ => 0) ["DSCN.jpg"]
        ⟨⟨"2008 10"⟩, 0, 0, ⟨"Arezzo"⟩, ⟨"COOLPIXP6000"⟩⟩
        ⟨true, [], ["out"], ["u"]⟩ = (.ok st4, false) ∧
      st4.files = (["out"] ++ (["2008 10", "Arezzo"] ++ ["COOLPIXP6000"]) ++ ["DSCN.jpg"]) ::
        [["DSCN.jpg"]]) :=
  ⟨C1_sorted_destination_layout ⟨[], [["DSCN.jpg"]], []⟩ (fun _ => 0) ["DSCN.jpg"]
      ⟨⟨"2008 10"⟩, 0, 0, ⟨"Arezzo"⟩, ⟨"COOLPIXP6000"⟩⟩ ⟨false, [], ["out"], ["u"]⟩
      (by decide) (by decide) (by decide),
   C1_sorted_destination_layout ⟨[], [["DSCN.jpg"]], []⟩ (fun _ => 0) ["DSCN.jpg"]
      ⟨⟨"2008 10"⟩, 0, 0, ⟨"Arezzo"⟩, ⟨"COOLPIXP6000"⟩⟩ ⟨true, [], ["out"], ["u"]⟩
      (by decide) (by decide) (by decide)⟩

/-! ## Claim C2 -/

/-- When the source file exists and the target slot under the unsorted
root is free, the unsorted copy succeeds and lands at
`<unsorted_root>/<relative-source-path>`. -/
theorem copy_unsorted_ok (st : Sys) (file unsorted_dir : FPath)
    (hsrc : file ∈ st.files)
    (hne : unsorted_dir ++ file ≠ [])
    (hnofile : unsorted_dir ++ file ∉ st.files)
    (hnodir : unsorted_dir ++ file ∉ st.dirs) :
    copy_unsorted_image_in_specific_dir st file unsorted_dir =
      .ok ⟨st.created_dirs_cache,
           (unsorted_dir ++ file) :: st.files,
           mkdirRecursive st.dirs (unsorted_dir ++ file).dropLast⟩ := by
  have hnd2 : unsorted_dir ++ file ∉
      mkdirRecursive st.dirs (unsorted_dir ++ file).dropLast := by
    intro h
    rcases mem_mkdirRecursive _ _ _ h with h2 | h2
    · exact hnodir h2
    · rw [List.length_dropLast] at h2
      have hpos : 0 < (unsorted_dir ++ file).length := List.length_pos.mpr hne
      omega
  unfold copy_unsorted_image_in_specific_dir copyFile
  rw [if_neg (not_not_intro hsrc), if_neg hnd2, if_neg hnofile]

/-- Claim C2: per-file error taxonomy of the orchestration loop.
A not-an-image failure is skipped with no metrics update and no state
change; a no-metadata or decoding failure copies the file unchanged to
`<unsorted_root>/<relative-source-path>` and bumps the unsorted counter
by exactly 1 and the error counter by 0; an I/O extraction failure
bumps the error counter, records the error detail, and leaves the
filesystem untouched; and every listed file reaches a terminal state —
no per-file failure aborts the processing of the remaining files. -/
theorem C2_per_file_error_taxonomy :
    (∀ (extract : FPath → ExifResult) (rng : Nat → Nat)
      (configuration : GlobalConfiguration) (st : Sys) (r : Reporting)
      (file : FPath) (s : String),
      extract file = .notImage s →
      process_one extract rng configuration st r file = (st, r, .skipped)) ∧
    (∀ (extract : FPath → ExifResult) (rng : Nat → Nat)
      (configuration : GlobalConfiguration) (st : Sys) (r : Reporting)
      (file : FPath),
      (extract file = .noExifData ∨ ∃ s, extract file = .decoding s) →
      file ∈ st.files →
      configuration.unsorted_images_directory ++ file ≠ [] →
      configuration.unsorted_images_directory ++ file ∉ st.files →
      configuration.unsorted_images_directory ++ file ∉ st.dirs →
      ∃ st1 : Sys,
        process_one extract rng configuration st r file =
          (st1, r.image_processed_unsorted, .unsorted) ∧
        st1.files = (configuration.unsorted_images_directory ++ file) :: st.files ∧
        r.image_processed_unsorted.nb_unsorted_images =
          (r.nb_unsorted_images + 1) % U32MOD ∧
        r.image_processed_unsorted.nb_error_on_images = r.nb_error_on_images) ∧
    (∀ (extract : FPath → ExifResult) (rng : Nat → Nat)
      (configuration : GlobalConfiguration) (st : Sys) (r : Reporting)
      (file : FPath) (m : String),
      extract file = .ioErr m →
      process_one extract rng configuration st r file =
        (st, (r.error_on_image).add_error file ("IO error: " ++ m), .errored) ∧
      (r.error_on_image).nb_error_on_images = (r.nb_error_on_images + 1) % U32MOD ∧
      ((r.error_on_image).add_error file ("IO error: " ++ m)).errors_details =
        r.errors_details ++ [(file, "IO error: " ++ m)] ∧
      (r.error_on_image).nb_unsorted_images = r.nb_unsorted_images ∧
      (r.error_on_image).nb_images = r.nb_images) ∧
    (∀ (extract : FPath → ExifResult) (rng : Nat → Nat)
      (configuration : GlobalConfiguration) (st : Sys) (r : Reporting)
      (files : List FPath),
      (sort_images_in_dir extract rng configuration st r files).2.2.length =
        files.length) := by
  refine ⟨?_, ?_, ?_, ?_⟩
  · intro extract rng configuration st r file s h
    unfold process_one
    rw [h]
  · intro extract rng configuration st r file hx hsrc hne hnofile hnodir
    have hcopy := copy_unsorted_ok st file configuration.unsorted_images_directory
      hsrc hne hnofile hnodir
    refine ⟨⟨st.created_dirs_cache,
        (configuration.unsorted_images_directory ++ file) :: st.files,
        mkdirRecursive st.dirs
          (configuration.unsorted_images_directory ++ file).dropLast⟩, ?_, rfl, by
          simp [Reporting.image_processed_unsorted], rfl⟩
    rcases hx with hx | ⟨s, hx⟩
    · unfold process_one
      rw [hx, hcopy]
    · unfold process_one
      rw [hx, hcopy]
  · intro extract rng configuration st r file m h
    refine ⟨?_, by simp [Reporting.error_on_image], rfl, rfl, rfl⟩
    unfold process_one
    rw [h]
  · intro extract rng configuration st r files
    induction files generalizing st r with
    | nil => rfl
    | cons f rest ih =>
      show ((sort_images_in_dir extract rng configuration
          (process_one extract rng configuration st r f).1
          (process_one extract rng configuration st r f).2.1 rest).2.2).length + 1 =
        rest.length + 1
      rw [ih]

/-- Witness for C2: a no-metadata file is preserved under the unsorted
root with the unsorted counter bumped, and an I/O failure records an
error detail. -/
theorem C2_per_file_error_taxonomy_witness :
    (∃ st1 : Sys,
      process_one (fun _ => ExifResult.noExifData) (fun _ => 0)
        ⟨false, [], ["s"], ["u"]⟩ ⟨[], [["img"]], []⟩ Reporting.default ["img"] =
        (st1, Reporting.default.image_processed_unsorted, .unsorted) ∧
      st1.files = ((["u"] : FPath) ++ ["img"]) :: [["img"]] ∧
      Reporting.default.image_processed_unsorted.nb_unsorted_images =
        (Reporting.default.nb_unsorted_images + 1) % U32MOD ∧
      Reporting.default.image_processed_unsorted.nb_error_on_images =
        Reporting.default.nb_error_on_images) ∧
    process_one (fun _ => ExifResult.ioErr ("disk")) (fun _ => 0)
      ⟨false, [], ["s"], ["u"]⟩ ⟨[], [["img"]], []⟩ Reporting.default ["img"] =
      (⟨[], [["img"]], []⟩,
       (Reporting.default.error_on_image).add_error ["img"] ("IO error: " ++ "disk"),
       .errored) := by
  constructor
  · exact C2_per_file_error_taxonomy.2.1 (fun _ => ExifResult.noExifData) (fun _ => 0)
      ⟨false, [], ["s"], ["u"]⟩ ⟨[], [["img"]], []⟩ Reporting.default ["img"]
      (Or.inl rfl) (by decide) (by decide) (by decide) (by decide)
  · exact (C2_per_file_error_taxonomy.2.2.1 (fun _ => ExifResult.ioErr ("disk"))
      (fun _ => 0) ⟨false, [], ["s"], ["u"]⟩ ⟨[], [["img"]], []⟩ Reporting.default
      ["img"] ("disk") rfl).1

end ImagesSort
